import Mathlib

/-!
Verification of the client-record keeper (reportes-clientes).

The definitions below are a shallow embedding of the data-access layer
(src/src/database.py), the credential manager (src/src/auth.py) and the
tabular export content (src/src/reports.py).  SQLite tables are embedded
as lists of rows together with the AUTOINCREMENT counter; timestamps are
opaque strings; fallible operations return Except.
-/

namespace Reportes

/-- Error taxonomy relevant to the claims: sqlite3.IntegrityError raised on a
UNIQUE-constraint collision (username or client email). -/
inductive DBError
  | constraintViolation
deriving Repr, DecidableEq

/-- A row of the clients table (database.py, CREATE TABLE clients):
id PRIMARY KEY AUTOINCREMENT, name NOT NULL, email UNIQUE NOT NULL, the five
nullable contact columns, and the two timestamp columns. -/
structure Client where
  id : Nat
  name : String
  email : String
  phone : Option String
  company : Option String
  address : Option String
  city : Option String
  country : Option String
  created_at : String
  updated_at : String
deriving Repr, DecidableEq

/-- The clients table: its rows in insertion order plus the AUTOINCREMENT
counter that supplies the next primary key. -/
structure ClientsTable where
  rows : List Client
  nextId : Nat
deriving Repr, DecidableEq

/-- Invariant maintained by the SQLite schema: every id was assigned below the
AUTOINCREMENT counter, and ids (PRIMARY KEY) and emails (UNIQUE) are pairwise
distinct. -/
def ClientsTable.WF (t : ClientsTable) : Prop :=
  (∀ c ∈ t.rows, c.id < t.nextId) ∧
  t.rows.Pairwise (fun a b => a.id ≠ b.id ∧ a.email ≠ b.email)

instance (t : ClientsTable) : Decidable t.WF := by
  unfold ClientsTable.WF; infer_instance

/-- DatabaseManager.create_client (database.py lines 89-100): INSERT the seven
supplied columns; SQLite fills created_at and updated_at with
CURRENT_TIMESTAMP (the same statement time, here the argument now) and the id
from the AUTOINCREMENT counter; the INSERT raises IntegrityError when the
email is already present; on success the method returns cursor.lastrowid.
mkClient is the row the INSERT writes. -/
def mkClient (t : ClientsTable) (now : String) (name email : String)
    (phone company address city country : Option String) : Client :=
  { id := t.nextId, name := name, email := email,
    phone := phone, company := company, address := address,
    city := city, country := country,
    created_at := now, updated_at := now }

/-- DatabaseManager.create_client itself: the guarded INSERT returning the
fresh id; see the comment on mkClient. -/
def create_client (t : ClientsTable) (now : String) (name email : String)
    (phone company address city country : Option String) :
    Except DBError (Nat × ClientsTable) :=
  if t.rows.any (fun c => c.email == email) then
    .error .constraintViolation
  else
    .ok (t.nextId,
      { rows := t.rows ++ [mkClient t now name email phone company address city country],
        nextId := t.nextId + 1 })

/-- DatabaseManager.get_client (database.py lines 102-111): SELECT * FROM
clients WHERE id = ?, fetchone; None when no row matches. -/
def get_client (t : ClientsTable) (client_id : Nat) : Option Client :=
  t.rows.find? (fun c => c.id == client_id)

/-- The sparse field set passed to DatabaseManager.update_client as keyword
arguments: any subset of the seven editable columns may be named; a named
nullable column carries either a string or NULL. -/
structure ClientUpdate where
  name : Option String := none
  email : Option String := none
  phone : Option (Option String) := none
  company : Option (Option String) := none
  address : Option (Option String) := none
  city : Option (Option String) := none
  country : Option (Option String) := none
deriving Repr, DecidableEq

/-- True when no field at all is named (the Python kwargs dict is empty). -/
def ClientUpdate.isEmpty (u : ClientUpdate) : Bool :=
  u.name.isNone && u.email.isNone && u.phone.isNone && u.company.isNone &&
  u.address.isNone && u.city.isNone && u.country.isNone

/-- Effect of the generated SET clause on one row: each named column receives
its new value, every other column keeps its old value, and updated_at receives
the timestamp that update_client adds to the kwargs. -/
def applyUpdate (u : ClientUpdate) (now : String) (c : Client) : Client :=
  { c with
    name := u.name.getD c.name,
    email := u.email.getD c.email,
    phone := u.phone.getD c.phone,
    company := u.company.getD c.company,
    address := u.address.getD c.address,
    city := u.city.getD c.city,
    country := u.country.getD c.country,
    updated_at := now }

/-- Effect of the UPDATE statement on an arbitrary row: only the row whose id
matches the WHERE clause is rewritten. -/
def applyUpdateAt (client_id : Nat) (u : ClientUpdate) (now : String)
    (d : Client) : Client :=
  if d.id == client_id then applyUpdate u now d else d

/-- DatabaseManager.update_client (database.py lines 122-141): returns False at
once when kwargs is empty; otherwise adds updated_at = now to the kwargs and
runs UPDATE clients SET ... WHERE id = ?.  When no row matches the id the
statement touches nothing and rowcount is 0 (False); when the row exists and
the written email would collide with a different row the UNIQUE constraint
raises IntegrityError; otherwise the matched row is rewritten and rowcount > 0
gives True. -/
def update_client (t : ClientsTable) (client_id : Nat) (u : ClientUpdate)
    (now : String) : Except DBError (Bool × ClientsTable) :=
  if u.isEmpty then .ok (false, t)
  else
    match t.rows.find? (fun c => c.id == client_id) with
    | none => .ok (false, t)
    | some c =>
      if t.rows.any (fun d => d.id != client_id &&
          d.email == (applyUpdate u now c).email) then
        .error .constraintViolation
      else
        .ok (true,
          { t with rows := t.rows.map (applyUpdateAt client_id u now) })

/-- DatabaseManager.delete_client (database.py lines 143-149): DELETE FROM
clients WHERE id = ?; returns rowcount > 0. -/
def delete_client (t : ClientsTable) (client_id : Nat) : Bool × ClientsTable :=
  let remaining := t.rows.filter (fun c => c.id != client_id)
  (remaining.length < t.rows.length, { t with rows := remaining })

/-- Number of rows whose value under key equals the non-null value k (one
GROUP BY bucket of get_client_stats). -/
def countOcc (rows : List Client) (key : Client → Option String) (k : String) :
    Nat :=
  (rows.filter (fun c => key c == some k)).length

/-- SELECT key, COUNT(*) FROM clients WHERE key IS NOT NULL GROUP BY key: one
pair per distinct non-null value, counting the rows that carry it. -/
def groupCounts (rows : List Client) (key : Client → Option String) :
    List (String × Nat) :=
  ((rows.filterMap key).dedup).map (fun k => (k, countOcc rows key k))

/-- ORDER BY count DESC of a grouped result. -/
def sortByCountDesc (l : List (String × Nat)) : List (String × Nat) :=
  l.mergeSort (fun a b => decide (b.2 ≤ a.2))

/-- Result shape of DatabaseManager.get_client_stats; the two groupings are
kept as ordered association lists, matching the insertion-ordered Python dicts
built from the ordered query results. -/
structure ClientStats where
  total_clients : Nat
  clients_by_country : List (String × Nat)
  clients_by_city : List (String × Nat)
deriving Repr, DecidableEq

/-- DatabaseManager.get_client_stats (database.py lines 192-226): COUNT(*) of
all rows; clients per country (NULL excluded, ordered by count descending);
clients per city the same but with LIMIT 10. -/
def get_client_stats (t : ClientsTable) : ClientStats :=
  { total_clients := t.rows.length,
    clients_by_country := sortByCountDesc (groupCounts t.rows (fun c => c.country)),
    clients_by_city :=
      (sortByCountDesc (groupCounts t.rows (fun c => c.city))).take 10 }

/-- Modelled from the spec: the bcrypt primitives (gensalt, hashpw, checkpw)
live in the third-party bcrypt library, not in this repository.  Per the spec
they form a salted one-way hash: the output embeds the fresh random salt, and
verification re-derives from the candidate password and the embedded salt.
The key derivation is idealised as collision-free, so a hash value determines
the salt and the password that produced it. -/
structure BcryptHash where
  salt : Nat
  digest : String
deriving Repr, DecidableEq

/-- Modelled from the spec: bcrypt.hashpw — derives a hash embedding the given
salt; idealised collision-free derivation from password and salt. -/
def bcrypt_hashpw (password : String) (salt : Nat) : BcryptHash :=
  { salt := salt, digest := password }

/-- Modelled from the spec: bcrypt.checkpw — re-derives from the candidate
password and the salt embedded in the stored hash and compares. -/
def bcrypt_checkpw (password : String) (hashed : BcryptHash) : Bool :=
  bcrypt_hashpw password hashed.salt == hashed

/-- AuthManager.hash_password (auth.py lines 17-20): gensalt then hashpw; the
fresh random salt drawn by gensalt is made explicit as the salt argument. -/
def hash_password (password : String) (salt : Nat) : BcryptHash :=
  bcrypt_hashpw password salt

/-- AuthManager.verify_password (auth.py lines 22-24): bcrypt.checkpw. -/
def verify_password (password : String) (hashed : BcryptHash) : Bool :=
  bcrypt_checkpw password hashed

/-- A row of the users table (database.py, CREATE TABLE users): id PRIMARY KEY
AUTOINCREMENT, username UNIQUE NOT NULL, password_hash, is_admin. -/
structure User where
  id : Nat
  username : String
  password_hash : BcryptHash
  is_admin : Bool
deriving Repr, DecidableEq

/-- The users table: rows in insertion order plus the AUTOINCREMENT counter. -/
structure UsersTable where
  rows : List User
  nextId : Nat
deriving Repr, DecidableEq

/-- Invariant maintained by the SQLite schema for users: ids below the counter,
ids (PRIMARY KEY) and usernames (UNIQUE) pairwise distinct. -/
def UsersTable.WF (t : UsersTable) : Prop :=
  (∀ u ∈ t.rows, u.id < t.nextId) ∧
  t.rows.Pairwise (fun a b => a.id ≠ b.id ∧ a.username ≠ b.username)

instance (t : UsersTable) : Decidable t.WF := by
  unfold UsersTable.WF; infer_instance

/-- What authenticate_user returns to its caller on success: id, username and
the admin flag — the password hash is not part of this record. -/
structure UserSummary where
  id : Nat
  username : String
  is_admin : Bool
deriving Repr, DecidableEq

/-- AuthManager.create_user (auth.py lines 26-39): hashes the password and
INSERTs; sqlite3.IntegrityError from the UNIQUE username is caught and turned
into False, leaving the table untouched; otherwise True. -/
def create_user (t : UsersTable) (username password : String) (is_admin : Bool)
    (salt : Nat) : Bool × UsersTable :=
  if t.rows.any (fun u => u.username == username) then
    (false, t)
  else
    let u : User := { id := t.nextId, username := username,
                      password_hash := hash_password password salt,
                      is_admin := is_admin }
    (true, { rows := t.rows ++ [u], nextId := t.nextId + 1 })

/-- AuthManager.authenticate_user (auth.py lines 41-58): SELECT by username,
then checkpw against the stored hash; on success a dict holding only id,
username and is_admin is returned, otherwise None. -/
def authenticate_user (t : UsersTable) (username password : String) :
    Option UserSummary :=
  match t.rows.find? (fun u => u.username == username) with
  | none => none
  | some u =>
    if verify_password password u.password_hash then
      some { id := u.id, username := u.username, is_admin := u.is_admin }
    else
      none

/-- Effect of the UPDATE users SET password_hash statement on an arbitrary
row: only the row whose id matches the WHERE clause receives the new hash. -/
def setPasswordAt (user_id : Nat) (h : BcryptHash) (v : User) : User :=
  if v.id == user_id then { v with password_hash := h } else v

/-- AuthManager.change_password (auth.py lines 87-103): SELECT password_hash by
id; when the row exists and the old password verifies, UPDATE the hash to a
fresh hash of the new password and return True; otherwise False with no
write. -/
def change_password (t : UsersTable) (user_id : Nat)
    (old_password new_password : String) (salt : Nat) : Bool × UsersTable :=
  match t.rows.find? (fun u => u.id == user_id) with
  | none => (false, t)
  | some u =>
    if verify_password old_password u.password_hash then
      (true,
        { t with rows :=
            (t.rows.map (setPasswordAt user_id (hash_password new_password salt))) })
    else
      (false, t)

/-- The relabeled header row shared by generate_clients_list_excel and
generate_clients_list_csv (reports.py lines 191 and 227). -/
def exportHeaders : List String :=
  ["ID", "Nombre", "Email", "Teléfono", "Empresa", "Dirección", "Ciudad",
   "País", "Fecha de Registro"]

/-- How pandas renders a nullable column value in to_csv and to_excel: the
string itself, or an empty cell for NULL (the default na_rep). -/
def renderCell (o : Option String) : String :=
  o.getD ""

/-- One data row of the exported table after the reindex to the fixed column
order id, name, email, phone, company, address, city, country, created_at
(reports.py lines 187 and 223; updated_at is dropped by the reindex). -/
def clientExportRow (c : Client) : List String :=
  [toString c.id, c.name, c.email, renderCell c.phone, renderCell c.company,
   renderCell c.address, renderCell c.city, renderCell c.country, c.created_at]

/-- Cell content of the table written by ReportGenerator.generate_clients_list_csv
(reports.py lines 213-232): the relabeled header row followed by one row per
client in the given order. -/
def generate_clients_list_csv (clients : List Client) : List (List String) :=
  exportHeaders :: clients.map clientExportRow

/-- Cell content of the single sheet written by
ReportGenerator.generate_clients_list_excel (reports.py lines 177-211): same
DataFrame construction, reindex and relabeling as the CSV export. -/
def generate_clients_list_excel (clients : List Client) : List (List String) :=
  exportHeaders :: clients.map clientExportRow

/-- Concrete client row used by closed statements. -/
def anaClient : Client :=
  { id := 1, name := "Ana Gomez", email := "ana@x.com", phone := none,
    company := none, address := none, city := none, country := none,
    created_at := "2024-01-01 00:00:00", updated_at := "2024-01-01 00:00:00" }

/-- Second concrete client row. -/
def bobClient : Client :=
  { id := 2, name := "Bob Diaz", email := "bob@x.com", phone := none,
    company := none, address := none, city := some "Lima",
    country := some "Peru", created_at := "2024-01-02 00:00:00",
    updated_at := "2024-01-02 00:00:00" }

/-- A clients table holding the two concrete rows. -/
def twoClientTable : ClientsTable :=
  { rows := [anaClient, bobClient], nextId := 3 }

/-- An empty clients table as SQLite creates it. -/
def emptyClientTable : ClientsTable :=
  { rows := [], nextId := 1 }

/-- Sparse update naming only the email field, set to the other row's email. -/
def emailClashUpdate : ClientUpdate :=
  { email := some "bob@x.com" }

/-- Sparse update naming only the phone field. -/
def phoneUpdate : ClientUpdate :=
  { phone := some (some "555-0100") }

/-- Concrete user row. -/
def adminUser : User :=
  { id := 1, username := "admin", password_hash := hash_password "oldpw" 0,
    is_admin := true }

/-- A users table holding the one concrete row. -/
def oneUserTable : UsersTable :=
  { rows := [adminUser], nextId := 2 }

/-!  Helper lemmas about list primitives, shared by the claim proofs. -/

/-- When at most one element can satisfy p (any two positions cannot both
satisfy it), find? returns the satisfying member. -/
theorem find_unique {α : Type} {p : α → Bool} {l : List α} {c : α}
    (hpair : l.Pairwise (fun a b => p a = true → p b = true → False))
    (hmem : c ∈ l) (hpc : p c = true) :
    l.find? p = some c := by
  induction l with
  | nil => cases hmem
  | cons a tl ih =>
    rcases List.pairwise_cons.mp hpair with ⟨hhead, htl⟩
    rcases List.mem_cons.mp hmem with rfl | hcl
    · exact List.find?_cons_of_pos _ hpc
    · have hpa : ¬ p a = true := fun h => hhead c hcl h hpc
      rw [List.find?_cons_of_neg _ hpa]
      exact ih htl hcl

/-- find? commutes with mapping a function that does not change the tested
predicate. -/
theorem find_map_comm {α : Type} (f : α → α) (p : α → Bool)
    (hp : ∀ a, p (f a) = p a) (l : List α) :
    (l.map f).find? p = (l.find? p).map f := by
  induction l with
  | nil => rfl
  | cons a tl ih =>
    cases hpa : p a with
    | true =>
      rw [List.map_cons, List.find?_cons_of_pos _ (by rw [hp a]; exact hpa),
        List.find?_cons_of_pos _ hpa]
      rfl
    | false =>
      rw [List.map_cons, List.find?_cons_of_neg _ (by simp [hp a, hpa]),
        List.find?_cons_of_neg _ (by simp [hpa])]
      exact ih

/-- Filtering strictly shortens a list exactly when some member fails the
predicate. -/
theorem length_filter_lt_iff {α : Type} (p : α → Bool) (l : List α) :
    (l.filter p).length < l.length ↔ ∃ a ∈ l, p a = false := by
  induction l with
  | nil => simp
  | cons b tl ih =>
    rw [List.filter_cons]
    cases hpb : p b with
    | false =>
      rw [if_neg (by simp)]
      constructor
      · intro _
        exact ⟨b, List.mem_cons_self b tl, hpb⟩
      · intro _
        exact Nat.lt_succ_of_le (List.length_filter_le p tl)
    | true =>
      rw [if_pos rfl]
      simp only [List.length_cons, Nat.succ_lt_succ_iff]
      rw [ih]
      constructor
      · rintro ⟨a, ha, hpa⟩
        exact ⟨a, List.mem_cons_of_mem b ha, hpa⟩
      · rintro ⟨a, ha, hpa⟩
        rcases List.mem_cons.mp ha with rfl | ha2
        · rw [hpb] at hpa
          cases hpa
        · exact ⟨a, ha2, hpa⟩

/-- C4: hashing the same password under two distinct fresh salts yields two
distinct hashes, verify accepts the password against both of them, and verify
rejects any other password against a hash of the password. -/
theorem C4_hash_verify (p q : String) (s1 s2 : Nat) (hs : s1 ≠ s2) :
    hash_password p s1 ≠ hash_password p s2 ∧
    verify_password p (hash_password p s1) = true ∧
    verify_password p (hash_password p s2) = true ∧
    (q ≠ p → verify_password q (hash_password p s1) = false) := by
  refine ⟨?_, ?_, ?_, ?_⟩
  · intro h
    exact hs (congrArg BcryptHash.salt h)
  · simp [verify_password, bcrypt_checkpw, hash_password, bcrypt_hashpw]
  · simp [verify_password, bcrypt_checkpw, hash_password, bcrypt_hashpw]
  · intro hqp
    simp [verify_password, bcrypt_checkpw, hash_password, bcrypt_hashpw,
      BcryptHash.mk.injEq, hqp]

/-- Closed instance of C4_hash_verify at a concrete password pair and salt
pair. -/
theorem C4_hash_verify_witness :
    (0 : Nat) ≠ 1 ∧
    (hash_password "secret" 0 ≠ hash_password "secret" 1 ∧
     verify_password "secret" (hash_password "secret" 0) = true ∧
     verify_password "secret" (hash_password "secret" 1) = true ∧
     ("other" ≠ "secret" →
       verify_password "other" (hash_password "secret" 0) = false)) :=
  ⟨by decide, C4_hash_verify "secret" "other" 0 1 (by decide)⟩

/-- C8: delete_client returns true exactly when a row with the id existed;
after the delete the id resolves to nothing, and a second delete of the same
id returns false. -/
theorem C8_delete_client (t : ClientsTable) (client_id : Nat) :
    ((delete_client t client_id).1 = true ↔ ∃ c ∈ t.rows, c.id = client_id) ∧
    get_client (delete_client t client_id).2 client_id = none ∧
    (delete_client (delete_client t client_id).2 client_id).1 = false := by
  refine ⟨?_, ?_, ?_⟩
  · simp only [delete_client, decide_eq_true_eq]
    rw [length_filter_lt_iff]
    constructor
    · rintro ⟨a, ha, hpa⟩
      refine ⟨a, ha, ?_⟩
      simpa using hpa
    · rintro ⟨a, ha, hpa⟩
      refine ⟨a, ha, ?_⟩
      simpa using hpa
  · simp only [delete_client, get_client]
    rw [List.find?_eq_none]
    intro x hx
    have hxf := (List.mem_filter.mp hx).2
    simp only [bne_iff_ne, ne_eq] at hxf
    simpa using hxf
  · simp only [delete_client]
    have hself : ((t.rows.filter (fun c => c.id != client_id)).filter
        (fun c => c.id != client_id)) = t.rows.filter (fun c => c.id != client_id) :=
      List.filter_eq_self.mpr (fun a ha => (List.mem_filter.mp ha).2)
    apply decide_eq_false
    intro hlt
    rw [hself] at hlt
    exact lt_irrefl _ hlt

/-- C9: creating a user whose username is already taken returns false and
leaves the users table exactly as it was. -/
theorem C9_duplicate_username (t : UsersTable) (username password : String)
    (is_admin : Bool) (salt : Nat) (u : User)
    (hu : u ∈ t.rows) (hun : u.username = username) :
    create_user t username password is_admin salt = (false, t) := by
  have hany : t.rows.any (fun v => v.username == username) = true := by
    rw [List.any_eq_true]
    exact ⟨u, hu, by simp [hun]⟩
  simp [create_user, hany]

/-- Closed instance of C9_duplicate_username: registering the existing admin
username again is refused and the table is unchanged. -/
theorem C9_duplicate_username_witness :
    adminUser ∈ oneUserTable.rows ∧ adminUser.username = "admin" ∧
    create_user oneUserTable "admin" "newpw" false 5 = (false, oneUserTable) :=
  ⟨by decide, by decide,
    C9_duplicate_username oneUserTable "admin" "newpw" false 5 adminUser
      (by decide) (by decide)⟩

/-- C1: with a fresh email, create_client succeeds and get_client on the
returned id yields a row agreeing with every supplied field, its creation and
update timestamps equal. -/
theorem C1_create_then_get (t : ClientsTable) (now name email : String)
    (phone company address city country : Option String)
    (hwf : t.WF)
    (hfresh : ∀ c ∈ t.rows, c.email ≠ email) :
    ∃ client_id t2,
      create_client t now name email phone company address city country =
        Except.ok (client_id, t2) ∧
      ∃ c, get_client t2 client_id = some c ∧
        c.name = name ∧ c.email = email ∧ c.phone = phone ∧
        c.company = company ∧ c.address = address ∧ c.city = city ∧
        c.country = country ∧ c.created_at = c.updated_at := by
  have hany : t.rows.any (fun c => c.email == email) = false := by
    rw [List.any_eq_false]
    intro c hc
    simpa using hfresh c hc
  refine ⟨t.nextId,
    { rows := t.rows ++ [mkClient t now name email phone company address city country],
      nextId := t.nextId + 1 }, ?_, ?_⟩
  · simp [create_client, hany]
  · refine ⟨mkClient t now name email phone company address city country,
      ?_, rfl, rfl, rfl, rfl, rfl, rfl, rfl, rfl⟩
    rw [get_client, List.find?_append]
    have h1 : t.rows.find? (fun c => c.id == t.nextId) = none := by
      rw [List.find?_eq_none]
      intro x hx
      have hlt := hwf.1 x hx
      simp only [beq_iff_eq]
      omega
    rw [h1]
    simp [mkClient, List.find?]

/-- Closed instance of C1_create_then_get: inserting Ana into the empty
table. -/
theorem C1_create_then_get_witness :
    emptyClientTable.WF ∧
    (∀ c ∈ emptyClientTable.rows, c.email ≠ "ana@x.com") ∧
    (∃ client_id t2,
      create_client emptyClientTable "2024-01-01 00:00:00" "Ana Gomez"
          "ana@x.com" none none none none none =
        Except.ok (client_id, t2) ∧
      ∃ c, get_client t2 client_id = some c ∧
        c.name = "Ana Gomez" ∧ c.email = "ana@x.com" ∧ c.phone = none ∧
        c.company = none ∧ c.address = none ∧ c.city = none ∧
        c.country = none ∧ c.created_at = c.updated_at) :=
  ⟨by decide, by decide,
    C1_create_then_get emptyClientTable "2024-01-01 00:00:00" "Ana Gomez"
      "ana@x.com" none none none none none (by decide) (by decide)⟩

/-- C3: creating a second client with an email already present fails with the
constraint violation; the first client stays retrievable unchanged under its
id (the failed insert leaves the table untouched). -/
theorem C3_duplicate_email (t : ClientsTable) (now name email : String)
    (phone company address city country : Option String) (c : Client)
    (hwf : t.WF) (hc : c ∈ t.rows) (he : c.email = email) :
    create_client t now name email phone company address city country =
      Except.error DBError.constraintViolation ∧
    get_client t c.id = some c := by
  constructor
  · have hany : t.rows.any (fun d => d.email == email) = true := by
      rw [List.any_eq_true]
      exact ⟨c, hc, by simp [he]⟩
    simp [create_client, hany]
  · rw [get_client]
    refine find_unique ?_ hc (by simp)
    exact hwf.2.imp (fun hab h1 h2 =>
      hab.1 ((beq_iff_eq.mp h1).trans (beq_iff_eq.mp h2).symm))

/-- Closed instance of C3_duplicate_email: re-using Ana's email on the
two-row table. -/
theorem C3_duplicate_email_witness :
    twoClientTable.WF ∧ anaClient ∈ twoClientTable.rows ∧
    anaClient.email = "ana@x.com" ∧
    (create_client twoClientTable "2024-03-03 00:00:00" "Impostor"
        "ana@x.com" none none none none none =
      Except.error DBError.constraintViolation ∧
     get_client twoClientTable anaClient.id = some anaClient) :=
  ⟨by decide, by decide, by decide,
    C3_duplicate_email twoClientTable "2024-03-03 00:00:00" "Impostor"
      "ana@x.com" none none none none none anaClient
      (by decide) (by decide) (by decide)⟩

/-- C5: authenticate_user returns nothing when no row carries the username or
when the password does not verify against the stored hash; when the username's
row exists and the password verifies, it returns exactly that row's id,
username and admin flag (a summary with no password hash field). -/
theorem C5_authenticate (t : UsersTable) (username password : String)
    (hwf : t.WF) :
    ((∀ u ∈ t.rows, u.username ≠ username) →
      authenticate_user t username password = none) ∧
    (∀ u, u ∈ t.rows → u.username = username →
      (verify_password password u.password_hash = false →
        authenticate_user t username password = none) ∧
      (verify_password password u.password_hash = true →
        authenticate_user t username password =
          some { id := u.id, username := u.username, is_admin := u.is_admin })) := by
  constructor
  · intro hno
    rw [authenticate_user]
    have hnone : t.rows.find? (fun v => v.username == username) = none := by
      rw [List.find?_eq_none]
      intro x hx
      simpa using hno x hx
    rw [hnone]
  · intro u hu hun
    have hfind : t.rows.find? (fun v => v.username == username) = some u := by
      refine find_unique ?_ hu (by simp [hun])
      exact hwf.2.imp (fun hab h1 h2 =>
        hab.2 ((beq_iff_eq.mp h1).trans (beq_iff_eq.mp h2).symm))
    constructor
    · intro hv
      rw [authenticate_user, hfind]
      simp [hv]
    · intro hv
      rw [authenticate_user, hfind]
      simp [hv]

/-- Closed instance of C5_authenticate on the one-user table. -/
theorem C5_authenticate_witness :
    oneUserTable.WF ∧
    (((∀ u ∈ oneUserTable.rows, u.username ≠ "admin") →
       authenticate_user oneUserTable "admin" "oldpw" = none) ∧
     (∀ u, u ∈ oneUserTable.rows → u.username = "admin" →
       (verify_password "oldpw" u.password_hash = false →
         authenticate_user oneUserTable "admin" "oldpw" = none) ∧
       (verify_password "oldpw" u.password_hash = true →
         authenticate_user oneUserTable "admin" "oldpw" =
           some { id := u.id, username := u.username, is_admin := u.is_admin }))) :=
  ⟨by decide, C5_authenticate oneUserTable "admin" "oldpw" (by decide)⟩

/-- C10: when change_password answers true, the stored hash now verifies the
new password and no longer the old one, so authenticating with the username
succeeds on the new password (yielding the user's summary) and fails on the
old one; when it answers false, the table is unchanged. -/
theorem C10_change_password (t : UsersTable) (user_id : Nat)
    (old_pw new_pw : String) (salt : Nat) (u : User)
    (hwf : t.WF) (hu : u ∈ t.rows) (hid : u.id = user_id)
    (hne : old_pw ≠ new_pw) :
    (∀ t2, change_password t user_id old_pw new_pw salt = (false, t2) →
      t2 = t) ∧
    (∀ t2, change_password t user_id old_pw new_pw salt = (true, t2) →
      ∃ u2 ∈ t2.rows, u2.id = user_id ∧
        verify_password new_pw u2.password_hash = true ∧
        verify_password old_pw u2.password_hash = false ∧
        authenticate_user t2 u.username new_pw =
          some { id := u.id, username := u.username, is_admin := u.is_admin } ∧
        authenticate_user t2 u.username old_pw = none) := by
  have hpairid : t.rows.Pairwise
      (fun a b => (a.id == user_id) = true → (b.id == user_id) = true → False) :=
    hwf.2.imp (fun hab h1 h2 =>
      hab.1 ((beq_iff_eq.mp h1).trans (beq_iff_eq.mp h2).symm))
  have hfindid : t.rows.find? (fun v => v.id == user_id) = some u :=
    find_unique hpairid hu (by simp [hid])
  have hstep : change_password t user_id old_pw new_pw salt =
      if verify_password old_pw u.password_hash = true then
        (true, { t with rows :=
            (t.rows.map (setPasswordAt user_id (hash_password new_pw salt))) })
      else (false, t) := by
    rw [change_password, hfindid]
  rw [hstep]
  have hfu : setPasswordAt user_id (hash_password new_pw salt) u =
      { u with password_hash := hash_password new_pw salt } := by
    rw [setPasswordAt, if_pos (by simp [hid])]
  have hpres : ∀ a,
      ((setPasswordAt user_id (hash_password new_pw salt) a).username ==
        u.username) = (a.username == u.username) := by
    intro a
    rw [setPasswordAt]
    by_cases ha : (a.id == user_id) = true
    · rw [if_pos ha]
    · rw [if_neg ha]
  have hfindun : t.rows.find? (fun v => v.username == u.username) = some u := by
    refine find_unique ?_ hu (by simp)
    exact hwf.2.imp (fun hab h1 h2 =>
      hab.2 ((beq_iff_eq.mp h1).trans (beq_iff_eq.mp h2).symm))
  by_cases hv : verify_password old_pw u.password_hash = true
  · rw [if_pos hv]
    constructor
    · intro t2 h
      injection h with h1 _
      exact Bool.noConfusion h1
    · intro t2 h
      injection h with _ h2
      subst h2
      refine ⟨setPasswordAt user_id (hash_password new_pw salt) u,
        List.mem_map_of_mem _ hu, ?_, ?_, ?_, ?_, ?_⟩
      · rw [hfu]
        exact hid
      · rw [hfu]
        simp [verify_password, bcrypt_checkpw, hash_password, bcrypt_hashpw]
      · rw [hfu]
        simp [verify_password, bcrypt_checkpw, hash_password, bcrypt_hashpw,
          BcryptHash.mk.injEq]
        intro h2
        exact absurd h2 hne
      · rw [authenticate_user]
        rw [show ({ t with rows :=
              (t.rows.map (setPasswordAt user_id (hash_password new_pw salt))) } :
            UsersTable).rows =
            t.rows.map (setPasswordAt user_id (hash_password new_pw salt)) from rfl]
        rw [find_map_comm _ _ hpres t.rows, hfindun, Option.map_some', hfu]
        simp [verify_password, bcrypt_checkpw, hash_password, bcrypt_hashpw]
      · rw [authenticate_user]
        rw [show ({ t with rows :=
              (t.rows.map (setPasswordAt user_id (hash_password new_pw salt))) } :
            UsersTable).rows =
            t.rows.map (setPasswordAt user_id (hash_password new_pw salt)) from rfl]
        rw [find_map_comm _ _ hpres t.rows, hfindun, Option.map_some', hfu]
        simp [verify_password, bcrypt_checkpw, hash_password, bcrypt_hashpw,
          BcryptHash.mk.injEq]
        intro h2
        exact absurd h2 hne
  · rw [if_neg hv]
    constructor
    · intro t2 h
      injection h with _ h2
      exact h2.symm
    · intro t2 h
      injection h with h1 _
      exact Bool.noConfusion h1.symm

/-- Closed instance of C10_change_password on the one-user table. -/
theorem C10_change_password_witness :
    oneUserTable.WF ∧ adminUser ∈ oneUserTable.rows ∧ adminUser.id = 1 ∧
    "oldpw" ≠ "newpw" ∧
    ((∀ t2, change_password oneUserTable 1 "oldpw" "newpw" 9 = (false, t2) →
       t2 = oneUserTable) ∧
     (∀ t2, change_password oneUserTable 1 "oldpw" "newpw" 9 = (true, t2) →
       ∃ u2 ∈ t2.rows, u2.id = 1 ∧
         verify_password "newpw" u2.password_hash = true ∧
         verify_password "oldpw" u2.password_hash = false ∧
         authenticate_user t2 adminUser.username "newpw" =
           some { id := adminUser.id, username := adminUser.username,
                  is_admin := adminUser.is_admin } ∧
         authenticate_user t2 adminUser.username "oldpw" = none)) :=
  ⟨by decide, by decide, by decide, by decide,
    C10_change_password oneUserTable 1 "oldpw" "newpw" 9 adminUser
      (by decide) (by decide) (by decide) (by decide)⟩

/-- Every pair reported by a grouping names a value some row actually carries
(so NULL-valued rows are excluded) and counts exactly the rows carrying it. -/
theorem groupCounts_mem {rows : List Client} {key : Client → Option String}
    {p : String × Nat} (hp : p ∈ groupCounts rows key) :
    (∃ c ∈ rows, key c = some p.1) ∧
    p.2 = (rows.filter (fun c => key c == some p.1)).length := by
  rcases List.mem_map.mp hp with ⟨k, hk, hkp⟩
  obtain rfl : (k, countOcc rows key k) = p := hkp
  constructor
  · have hk2 := List.mem_dedup.mp hk
    rcases List.mem_filterMap.mp hk2 with ⟨c, hc, hck⟩
    exact ⟨c, hc, hck⟩
  · rfl

/-- The descending sort used by the stats queries is sorted by count. -/
theorem sortByCountDesc_sorted (l : List (String × Nat)) :
    (sortByCountDesc l).Pairwise (fun a b => b.2 ≤ a.2) := by
  have h := @List.sorted_mergeSort (String × Nat)
    (fun a b => decide (b.2 ≤ a.2))
    (fun a b c h1 h2 => by
      simp only [decide_eq_true_eq] at h1 h2 ⊢
      omega)
    (fun a b => by
      simp only [Bool.or_eq_true, decide_eq_true_eq]
      omega)
    l
  exact h.imp (fun hab => of_decide_eq_true hab)

/-- Sorting for the stats queries permutes the grouped pairs. -/
theorem sortByCountDesc_mem {l : List (String × Nat)} {p : String × Nat}
    (hp : p ∈ sortByCountDesc l) : p ∈ l := by
  rw [sortByCountDesc] at hp
  exact (List.mergeSort_perm l (fun a b => decide (b.2 ≤ a.2))).mem_iff.mp hp

/-- C7: the by-city mapping has at most 10 entries and is ordered by
descending count; both the by-country and the by-city mapping name only
non-null values and count exactly the rows carrying them (rows with a NULL
country or city are excluded); total_clients counts every row. -/
theorem C7_client_stats (t : ClientsTable) :
    (get_client_stats t).clients_by_city.length ≤ 10 ∧
    (get_client_stats t).clients_by_city.Pairwise (fun a b => b.2 ≤ a.2) ∧
    (∀ p ∈ (get_client_stats t).clients_by_country,
      (∃ c ∈ t.rows, c.country = some p.1) ∧
      p.2 = (t.rows.filter (fun c => c.country == some p.1)).length) ∧
    (∀ p ∈ (get_client_stats t).clients_by_city,
      (∃ c ∈ t.rows, c.city = some p.1) ∧
      p.2 = (t.rows.filter (fun c => c.city == some p.1)).length) ∧
    (get_client_stats t).total_clients = t.rows.length := by
  refine ⟨?_, ?_, ?_, ?_, rfl⟩
  · exact List.length_take_le 10 _
  · exact (sortByCountDesc_sorted
      (groupCounts t.rows (fun c => c.city))).sublist
      (List.take_sublist 10 _)
  · intro p hp
    exact groupCounts_mem (sortByCountDesc_mem hp)
  · intro p hp
    have hp2 : p ∈ sortByCountDesc (groupCounts t.rows (fun c => c.city)) :=
      List.mem_of_mem_take hp
    exact groupCounts_mem (sortByCountDesc_mem hp2)

/-- C2 counterexample: on an existing id (Ana, id 1) with a non-empty sparse
field set (email alone, set to Bob's email), update_client does not perform
the update — it fails with the constraint violation, so the universally
quantified claim is false as stated. -/
theorem C2_counterexample :
    emailClashUpdate.isEmpty = false ∧
    (∃ c ∈ twoClientTable.rows, c.id = 1) ∧
    update_client twoClientTable 1 emailClashUpdate "2024-05-05 00:00:00" =
      Except.error DBError.constraintViolation :=
  ⟨by decide, by decide, by rfl⟩

/-- C2 (amended): an empty field set, or an id matching no row, returns false
and writes nothing; on an existing id with a non-empty field set whose email
(when named) does not collide with a different row, the update succeeds,
rewrites exactly the matched row — named fields to their new values, unnamed
fields kept, updated_at stamped with the current time — and keeps every other
row. -/
theorem C2_update_frame (t : ClientsTable) (client_id : Nat) (u : ClientUpdate)
    (now : String) (hwf : t.WF) :
    (u.isEmpty = true →
      update_client t client_id u now = Except.ok (false, t)) ∧
    (u.isEmpty = false → get_client t client_id = none →
      update_client t client_id u now = Except.ok (false, t)) ∧
    (∀ c, u.isEmpty = false → get_client t client_id = some c →
      (∀ e, u.email = some e → ∀ d ∈ t.rows, d.id ≠ client_id → d.email ≠ e) →
      ∃ t2, update_client t client_id u now = Except.ok (true, t2) ∧
        t2.nextId = t.nextId ∧ t2.rows.length = t.rows.length ∧
        (∀ d ∈ t.rows, d.id ≠ client_id → d ∈ t2.rows) ∧
        ∃ c2, get_client t2 client_id = some c2 ∧
          c2.id = c.id ∧ c2.created_at = c.created_at ∧
          c2.updated_at = now ∧
          (u.name = none → c2.name = c.name) ∧
          (∀ v, u.name = some v → c2.name = v) ∧
          (u.email = none → c2.email = c.email) ∧
          (∀ v, u.email = some v → c2.email = v) ∧
          (u.phone = none → c2.phone = c.phone) ∧
          (∀ v, u.phone = some v → c2.phone = v) ∧
          (u.company = none → c2.company = c.company) ∧
          (∀ v, u.company = some v → c2.company = v) ∧
          (u.address = none → c2.address = c.address) ∧
          (∀ v, u.address = some v → c2.address = v) ∧
          (u.city = none → c2.city = c.city) ∧
          (∀ v, u.city = some v → c2.city = v) ∧
          (u.country = none → c2.country = c.country) ∧
          (∀ v, u.country = some v → c2.country = v)) := by
  refine ⟨?_, ?_, ?_⟩
  · intro he
    rw [update_client, if_pos he]
  · intro hne hnone
    rw [get_client] at hnone
    rw [update_client, if_neg (by simp [hne]), hnone]
  · intro c hne hsome hcol
    rw [get_client] at hsome
    have hcmem : c ∈ t.rows := List.mem_of_find?_eq_some hsome
    have hcid : c.id = client_id := by
      have := List.find?_some hsome
      simpa using this
    have hany : t.rows.any (fun d => d.id != client_id &&
        d.email == (applyUpdate u now c).email) = false := by
      rw [List.any_eq_false]
      intro d hd
      simp only [Bool.and_eq_true, bne_iff_ne, ne_eq, beq_iff_eq, not_and]
      intro hdid hde
      cases hu : u.email with
      | some e =>
        have hnew : (applyUpdate u now c).email = e := by
          simp [applyUpdate, hu]
        exact hcol e hu d hd hdid (by rw [← hnew]; exact hde)
      | none =>
        have hnew : (applyUpdate u now c).email = c.email := by
          simp [applyUpdate, hu]
        have hdc : d ≠ c := fun h => hdid (h ▸ hcid)
        have hsym : Symmetric
            (fun a b : Client => a.id ≠ b.id ∧ a.email ≠ b.email) :=
          fun a b hab => ⟨hab.1.symm, hab.2.symm⟩
        have := List.Pairwise.forall hsym hwf.2 hd hcmem hdc
        exact this.2 (by rw [← hnew]; exact hde)
    have hstep : update_client t client_id u now =
        if (t.rows.any (fun d => d.id != client_id &&
            d.email == (applyUpdate u now c).email)) = true then
          Except.error DBError.constraintViolation
        else
          Except.ok (true,
            { t with rows := t.rows.map (applyUpdateAt client_id u now) }) := by
      rw [update_client, if_neg (by simp [hne]), hsome]
    rw [hstep, if_neg (by simp [hany])]
    refine ⟨{ t with rows := t.rows.map (applyUpdateAt client_id u now) },
      rfl, rfl, by simp, ?_, ?_⟩
    · intro d hd hdid
      have hfix : applyUpdateAt client_id u now d = d := by
        rw [applyUpdateAt, if_neg (by simp [hdid])]
      exact hfix ▸ List.mem_map_of_mem _ hd
    · have hpres : ∀ a,
          ((applyUpdateAt client_id u now a).id == client_id) =
            (a.id == client_id) := by
        intro a
        rw [applyUpdateAt]
        by_cases ha : (a.id == client_id) = true
        · rw [if_pos ha]
          have : (applyUpdate u now a).id = a.id := rfl
          rw [this]
        · rw [if_neg ha]
      refine ⟨applyUpdate u now c, ?_, rfl, rfl, rfl, ?_, ?_, ?_, ?_, ?_, ?_,
        ?_, ?_, ?_, ?_, ?_, ?_, ?_, ?_⟩
      · simp only [get_client]
        rw [find_map_comm _ _ hpres t.rows, hsome, Option.map_some']
        rw [applyUpdateAt, if_pos (by simp [hcid])]
      · intro h
        simp [applyUpdate, h]
      · intro v h
        simp [applyUpdate, h]
      · intro h
        simp [applyUpdate, h]
      · intro v h
        simp [applyUpdate, h]
      · intro h
        simp [applyUpdate, h]
      · intro v h
        simp [applyUpdate, h]
      · intro h
        simp [applyUpdate, h]
      · intro v h
        simp [applyUpdate, h]
      · intro h
        simp [applyUpdate, h]
      · intro v h
        simp [applyUpdate, h]
      · intro h
        simp [applyUpdate, h]
      · intro v h
        simp [applyUpdate, h]
      · intro h
        simp [applyUpdate, h]
      · intro v h
        simp [applyUpdate, h]

/-- Closed instance of C2_update_frame on the two-row table with the sparse
phone-only update. -/
theorem C2_update_frame_witness :
    twoClientTable.WF ∧
    ((phoneUpdate.isEmpty = true →
       update_client twoClientTable 1 phoneUpdate "2024-06-06 00:00:00" =
         Except.ok (false, twoClientTable)) ∧
     (phoneUpdate.isEmpty = false → get_client twoClientTable 1 = none →
       update_client twoClientTable 1 phoneUpdate "2024-06-06 00:00:00" =
         Except.ok (false, twoClientTable)) ∧
     (∀ c, phoneUpdate.isEmpty = false →
       get_client twoClientTable 1 = some c →
       (∀ e, phoneUpdate.email = some e →
         ∀ d ∈ twoClientTable.rows, d.id ≠ 1 → d.email ≠ e) →
       ∃ t2, update_client twoClientTable 1 phoneUpdate "2024-06-06 00:00:00" =
           Except.ok (true, t2) ∧
         t2.nextId = twoClientTable.nextId ∧
         t2.rows.length = twoClientTable.rows.length ∧
         (∀ d ∈ twoClientTable.rows, d.id ≠ 1 → d ∈ t2.rows) ∧
         ∃ c2, get_client t2 1 = some c2 ∧
           c2.id = c.id ∧ c2.created_at = c.created_at ∧
           c2.updated_at = "2024-06-06 00:00:00" ∧
           (phoneUpdate.name = none → c2.name = c.name) ∧
           (∀ v, phoneUpdate.name = some v → c2.name = v) ∧
           (phoneUpdate.email = none → c2.email = c.email) ∧
           (∀ v, phoneUpdate.email = some v → c2.email = v) ∧
           (phoneUpdate.phone = none → c2.phone = c.phone) ∧
           (∀ v, phoneUpdate.phone = some v → c2.phone = v) ∧
           (phoneUpdate.company = none → c2.company = c.company) ∧
           (∀ v, phoneUpdate.company = some v → c2.company = v) ∧
           (phoneUpdate.address = none → c2.address = c.address) ∧
           (∀ v, phoneUpdate.address = some v → c2.address = v) ∧
           (phoneUpdate.city = none → c2.city = c.city) ∧
           (∀ v, phoneUpdate.city = some v → c2.city = v) ∧
           (phoneUpdate.country = none → c2.country = c.country) ∧
           (∀ v, phoneUpdate.country = some v → c2.country = v))) :=
  ⟨by decide,
    C2_update_frame twoClientTable 1 phoneUpdate "2024-06-06 00:00:00"
      (by decide)⟩

/-- C6 counterexample: exporting Ana (all optional fields NULL) to CSV
renders her phone and the other absent fields as empty cells, not as the
literal string N/A — the N/A placeholder appears only in the PDF exports. -/
theorem C6_counterexample :
    generate_clients_list_csv [anaClient] =
      [["ID", "Nombre", "Email", "Teléfono", "Empresa", "Dirección", "Ciudad",
        "País", "Fecha de Registro"],
       ["1", "Ana Gomez", "ana@x.com", "", "", "", "", "",
        "2024-01-01 00:00:00"]] ∧
    ("" : String) ≠ "N/A" := by
  constructor
  · rfl
  · decide

/-- C6 (amended): the Excel and CSV exports produce the same table: the fixed
relabeled header row, then one row per client in the fixed column order id,
name, email, phone, company, address, city, country, created_at, where each
absent (null) optional field is rendered as an empty cell rather than as the
literal N/A. -/
theorem C6_export_table (clients : List Client) :
    generate_clients_list_excel clients = generate_clients_list_csv clients ∧
    (generate_clients_list_csv clients).head? =
      some ["ID", "Nombre", "Email", "Teléfono", "Empresa", "Dirección",
        "Ciudad", "País", "Fecha de Registro"] ∧
    (generate_clients_list_csv clients).tail = clients.map clientExportRow ∧
    ∀ c ∈ clients, (clientExportRow c).length = 9 ∧
      (clientExportRow c)[0]? = some (toString c.id) ∧
      (clientExportRow c)[1]? = some c.name ∧
      (clientExportRow c)[2]? = some c.email ∧
      (clientExportRow c)[8]? = some c.created_at ∧
      (∀ v, c.phone = some v → (clientExportRow c)[3]? = some v) ∧
      (c.phone = none → (clientExportRow c)[3]? = some "") ∧
      (∀ v, c.company = some v → (clientExportRow c)[4]? = some v) ∧
      (c.company = none → (clientExportRow c)[4]? = some "") ∧
      (∀ v, c.address = some v → (clientExportRow c)[5]? = some v) ∧
      (c.address = none → (clientExportRow c)[5]? = some "") ∧
      (∀ v, c.city = some v → (clientExportRow c)[6]? = some v) ∧
      (c.city = none → (clientExportRow c)[6]? = some "") ∧
      (∀ v, c.country = some v → (clientExportRow c)[7]? = some v) ∧
      (c.country = none → (clientExportRow c)[7]? = some "") := by
  refine ⟨rfl, rfl, rfl, ?_⟩
  intro c _
  refine ⟨rfl, rfl, rfl, rfl, rfl, ?_, ?_, ?_, ?_, ?_, ?_, ?_, ?_, ?_, ?_⟩
  all_goals
    first
      | (intro v h
         simp [clientExportRow, renderCell, h])
      | (intro h
         simp [clientExportRow, renderCell, h])

end Reportes
